import Mathlib

/-!
Verification of the rule-file validator of the cursor-rules repository,
shipped as .github/scripts/validate-rules.js.

The validator reads every rule document, registers all file names in a
first pass (allRules), then validates each file with validateRuleFile and
exits non-zero iff any file produced errors.  validateRuleFile pushes
plain error strings for six independent checks, none of which aborts the
others:
  - content must start with the frontmatter delimiter "---" (line 90);
  - content must contain a closing delimiter line "\n---\n" (line 95);
  - the frontmatter (text between index 3 and the first "\n---\n" found
    from index 3, trimmed; lines 100-106) must contain the substrings
    "Description:" and "Globs:" (lines 108-113);
  - the regex /Globs:\s*(.+)(\n|$)/ is matched against the frontmatter;
    when it matches and the captured group trims to the empty string, an
    empty-Globs error is pushed (lines 115-122);
  - every match of /@[\w-]+\.mdc/g in the ENTIRE content is a reference;
    the target (match without the sigil) must be a known file name
    (lines 124-131);
  - the main content (second piece of content.split("\n---\n"), or empty
    when absent) must contain a "#" character (lines 133-137).

The embedding models content as a list of characters and implements the
string and regex primitives the script uses (startsWith, includes,
indexOf/substring/trim, the two regexes with their leftmost-greedy
backtracking semantics, split) as structurally recursive executable
functions.  JavaScript's whitespace class is modelled by Char.isWhitespace
and the dot of the Globs regex excludes both newline and carriage return,
as in JavaScript.  Each pushed error string is tagged with the diagnostic
kind of the check that pushes it (the six kinds of the design document's
taxonomy), which refines the script's plain strings without changing
behaviour: the messages of distinct checks are distinct.
-/

namespace CursorRules

/-- The kinds of validation diagnostics, one per push site of
validateRuleFile (taxonomy of the design document, section 7). -/
inductive DiagKind where
  | MissingHeaderBlock
  | UnterminatedHeaderBlock
  | MissingRequiredKey
  | EmptyRequiredValue
  | DanglingReference
  | EmptyBodyContent
deriving DecidableEq, Repr

/-- One validation failure: the error string pushed by validate-rules.js,
tagged with the kind of the check that pushed it. -/
structure Diagnostic where
  kind : DiagKind
  message : String
deriving DecidableEq, Repr

/-- One rule document as handed to the validator: its file name (the key
registered in allRules) and its raw text. -/
structure RawDoc where
  identifier : String
  content : String
deriving DecidableEq, Repr

/-- The opening frontmatter delimiter, the argument of
content.startsWith at validate-rules.js:90. -/
def delimPat : List Char := ['-', '-', '-']

/-- The closing delimiter pattern, the argument of content.includes at
validate-rules.js:95 and of indexOf/split at lines 102 and 134. -/
def nlDelimNl : List Char := ['\n', '-', '-', '-', '\n']

/-- JavaScript String.prototype.trim, modelled with Char.isWhitespace. -/
def trimChars (s : List Char) : List Char :=
  ((s.dropWhile Char.isWhitespace).reverse.dropWhile Char.isWhitespace).reverse

/-- JavaScript String.prototype.includes: the pattern occurs as a
contiguous substring. -/
def containsSub (pat : List Char) : List Char → Bool
  | [] => pat.isEmpty
  | c :: rest => pat.isPrefixOf (c :: rest) || containsSub pat rest

/-- JavaScript String.prototype.indexOf: index of the first occurrence of
the pattern, none when absent. -/
def findSub (pat : List Char) : List Char → Option Nat
  | [] => if pat.isEmpty then some 0 else none
  | c :: rest =>
      if pat.isPrefixOf (c :: rest) then some 0
      else (findSub pat rest).map (fun n => n + 1)

/-- The frontmatter of a file (validate-rules.js:100-106): empty unless
the content starts with the delimiter; otherwise the text between index 3
and the first closing delimiter found from index 3, trimmed; empty when
no closing delimiter exists. -/
def frontmatterOf (content : List Char) : List Char :=
  if delimPat.isPrefixOf content then
    match findSub nlDelimNl (content.drop 3) with
    | some i => trimChars ((content.drop 3).take i)
    | none => []
  else []

/-- The error string of validate-rules.js:91. -/
def frontStartMsg : String := "File does not start with frontmatter (---)"

/-- The error string of validate-rules.js:96. -/
def frontCloseMsg : String := "Frontmatter is not properly closed (missing --- line)"

/-- The error string of validate-rules.js:111. -/
def missingSectionMsg (k : String) : String :=
  "Missing required frontmatter section: " ++ k

/-- The error string of validate-rules.js:120. -/
def emptyGlobsMsg : String := "Globs section is empty"

/-- The error string of validate-rules.js:129. -/
def danglingMsg (t : String) : String :=
  "References non-existent rule file: " ++ t

/-- The error string of validate-rules.js:136. -/
def noHeadingMsg : String := "Missing header sections (no # found)"

/-- Check of validate-rules.js:90-92: the content must start with the
frontmatter delimiter. -/
def startErrs (content : List Char) : List Diagnostic :=
  if delimPat.isPrefixOf content then []
  else [⟨.MissingHeaderBlock, frontStartMsg⟩]

/-- Check of validate-rules.js:95-97: the content must contain a closing
delimiter line. -/
def closeErrs (content : List Char) : List Diagnostic :=
  if containsSub nlDelimNl content then []
  else [⟨.UnterminatedHeaderBlock, frontCloseMsg⟩]

/-- The REQUIRED_SECTIONS constant of validate-rules.js:21. -/
def REQUIRED_SECTIONS : List String := ["Description", "Globs"]

/-- The loop of validate-rules.js:109-113: for each required section, the
frontmatter must contain the substring formed by the section name and a
colon. -/
def sectionErrsList (fm : List Char) : List String → List Diagnostic
  | [] => []
  | k :: rest =>
      (if containsSub (k.data ++ [':']) fm then []
       else [⟨.MissingRequiredKey, missingSectionMsg k⟩])
        ++ sectionErrsList fm rest

/-- Required-section errors of a frontmatter. -/
def sectionErrs (fm : List Char) : List Diagnostic :=
  sectionErrsList fm REQUIRED_SECTIONS

/-- A character the dot of the Globs regex matches: anything but newline
and carriage return. -/
def dotChar (c : Char) : Bool := !(c == '\n' || c == '\r')

/-- The longest run of dot characters at the head of the text: the greedy
match of the group (.+) when non-empty. -/
def lineTake (s : List Char) : List Char := s.takeWhile dotChar

/-- Whether (.+)(\n|$) matches at the head of the text: the greedy dot
run is non-empty and is followed by a newline or the end of the text. -/
def lineOk (s : List Char) : Bool :=
  !(lineTake s).isEmpty &&
    (match s.dropWhile dotChar with
     | [] => true
     | c :: _ => c == '\n')

/-- The backtracking match of \s*(.+)(\n|$) at the head of the text,
returning the captured group: the star consumes whitespace greedily and
gives characters back one at a time until the rest of the pattern
matches, exactly as the JavaScript regex engine does. -/
def matchTail : List Char → Option (List Char)
  | [] => none
  | c :: rest =>
      match (if c.isWhitespace then matchTail rest else none) with
      | some g => some g
      | none =>
          if lineOk (c :: rest) then some (lineTake (c :: rest)) else none

/-- The literal of the Globs-value regex of validate-rules.js:116. -/
def globsKeyPat : List Char := ['G', 'l', 'o', 'b', 's', ':']

/-- frontmatter.match(/Globs:\s*(.+)(\n|$)/) of validate-rules.js:116,
returning the captured group of the leftmost match: the first occurrence
of the literal whose tail admits the rest of the pattern. -/
def globsMatch : List Char → Option (List Char)
  | [] => none
  | c :: rest =>
      if globsKeyPat.isPrefixOf (c :: rest) then
        match matchTail ((c :: rest).drop 6) with
        | some g => some g
        | none => globsMatch rest
      else globsMatch rest

/-- Check of validate-rules.js:116-122: when the Globs regex matches and
the captured group trims to the empty string, the Globs section is
reported empty.  No match, no error. -/
def globsErrs (fm : List Char) : List Diagnostic :=
  match globsMatch fm with
  | some g =>
      if (trimChars g).isEmpty then [⟨.EmptyRequiredValue, emptyGlobsMsg⟩]
      else []
  | none => []

/-- A character of the class [\w-] of the reference regex: JavaScript
word characters (ASCII letters, digits, underscore) and the hyphen. -/
def wordDashChar (c : Char) : Bool := c.isAlphanum || c == '_' || c == '-'

/-- The literal extension of the reference regex. -/
def mdcPat : List Char := ['.', 'm', 'd', 'c']

/-- content.match(/@[\w-]+\.mdc/g) of validate-rules.js:125, with the
sigil already stripped from each match (the substring(1) of line 127): at
a sigil character, the greedy non-empty word-dash run must be followed by
the literal extension; matches contain no inner sigil, so the
non-overlapping global scan is the character-by-character scan. -/
def scanRefs : List Char → List String
  | [] => []
  | c :: rest =>
      (if c == '@' &&
          (!(rest.takeWhile wordDashChar).isEmpty &&
            mdcPat.isPrefixOf (rest.dropWhile wordDashChar))
       then [String.mk (rest.takeWhile wordDashChar ++ mdcPat)]
       else []) ++ scanRefs rest

/-- The loop of validate-rules.js:126-131: every extracted reference
target must be a registered file name. -/
def refErrsList (known : List String) : List String → List Diagnostic
  | [] => []
  | r :: rest =>
      (if known.contains r then []
       else [⟨.DanglingReference, danglingMsg r⟩]) ++ refErrsList known rest

/-- Reference errors of a file's content against the known file names. -/
def refErrs (content : List Char) (known : List String) : List Diagnostic :=
  refErrsList known (scanRefs content)

/-- content.split("\n---\n")[1] || "" of validate-rules.js:134: the text
between the first and second closing-delimiter separators, or up to the
end when there is no second one, or empty when there is no first one. -/
def mainContentOf (content : List Char) : List Char :=
  match findSub nlDelimNl content with
  | none => []
  | some i =>
      match findSub nlDelimNl (content.drop (i + 5)) with
      | some j => (content.drop (i + 5)).take j
      | none => content.drop (i + 5)

/-- Check of validate-rules.js:135-137: the main content must contain a
hash character somewhere. -/
def headingErrs (content : List Char) : List Diagnostic :=
  if containsSub ['#'] (mainContentOf content) then []
  else [⟨.EmptyBodyContent, noHeadingMsg⟩]

/-- validateRuleFile of validate-rules.js:86-143: the six checks run
unconditionally and their errors are pushed in program order; no check
aborts the others. -/
def validateRuleFile (_filename : String) (content : List Char)
    (known : List String) : List Diagnostic :=
  startErrs content ++ closeErrs content
    ++ sectionErrs (frontmatterOf content)
    ++ globsErrs (frontmatterOf content)
    ++ refErrs content known ++ headingErrs content

/-- The reference targets extracted from a document's content. -/
def docRefs (d : RawDoc) : List String := scanRefs d.content.data

/-- Per-document entry of a run report. -/
structure DocReport where
  identifier : String
  diagnostics : List Diagnostic
deriving DecidableEq, Repr

/-- The aggregate of one run: per-document results in discovery order and
the hasErrors flag of validate-rules.js:43-69. -/
structure RunReport where
  reports : List DocReport
  hasErrors : Bool
deriving DecidableEq, Repr

/-- The first pass of validate-rules.js:47-51: every file name is
registered in allRules before any file is validated. -/
def knownIdentifiers (docs : List RawDoc) : List String :=
  docs.map (fun d => d.identifier)

/-- The driver loop of validate-rules.js:43-69: validate each file
against the full registered name set; the run has errors iff some file's
error list is non-empty. -/
def validateRules (docs : List RawDoc) : RunReport :=
  let known := knownIdentifiers docs
  let reports := docs.map fun d =>
    DocReport.mk d.identifier (validateRuleFile d.identifier d.content.data known)
  ⟨reports, reports.any fun r => !r.diagnostics.isEmpty⟩

/-- The exit behaviour of validate-rules.js:36-39 and 76-80: exit 0 when
no rule files exist, exit 1 when some file had errors, exit 0
otherwise. -/
def exitCode (docs : List RawDoc) : Nat :=
  if docs.isEmpty then 0
  else if (validateRules docs).hasErrors then 1 else 0

/-- The console output of a run (validate-rules.js:59-79): a pass/fail
line per file with its error lines, then the summary. -/
def renderReport (r : RunReport) : List String :=
  (r.reports.foldr (fun rep acc =>
      ((if rep.diagnostics.isEmpty then "PASS " else "FAIL ") ++ rep.identifier)
        :: (rep.diagnostics.map (fun diag => "  - " ++ diag.message)) ++ acc) [])
    ++ [if r.hasErrors then "Validation failed" else "All rules are valid!"]

/-- Whether a run report contains any DanglingReference diagnostic. -/
def hasDangling (r : RunReport) : Bool :=
  r.reports.any fun rep =>
    rep.diagnostics.any fun diag => diag.kind == DiagKind.DanglingReference

/-! Inversion lemmas for the individual checks. -/

/-- Inversion for the opening-delimiter check. -/
theorem mem_startErrs {content : List Char} {diag : Diagnostic}
    (h : diag ∈ startErrs content) :
    diag = Diagnostic.mk .MissingHeaderBlock frontStartMsg := by
  unfold startErrs at h
  split at h
  · simp at h
  · simpa using h

/-- Inversion for the closing-delimiter check. -/
theorem mem_closeErrs {content : List Char} {diag : Diagnostic}
    (h : diag ∈ closeErrs content) :
    diag = Diagnostic.mk .UnterminatedHeaderBlock frontCloseMsg := by
  unfold closeErrs at h
  split at h
  · simp at h
  · simpa using h

/-- Inversion for the required-section check: an error names Description
or Globs and the corresponding substring is absent. -/
theorem mem_sectionErrs {fm : List Char} {diag : Diagnostic}
    (h : diag ∈ sectionErrs fm) :
    (diag = Diagnostic.mk .MissingRequiredKey (missingSectionMsg "Description") ∧
        containsSub ("Description".data ++ [':']) fm = false) ∨
      (diag = Diagnostic.mk .MissingRequiredKey (missingSectionMsg "Globs") ∧
        containsSub ("Globs".data ++ [':']) fm = false) := by
  simp only [sectionErrs, REQUIRED_SECTIONS, sectionErrsList,
    List.append_nil] at h
  rcases List.mem_append.mp h with h1 | h1
  · left
    by_cases hc : containsSub ("Description".data ++ [':']) fm = true
    · rw [if_pos hc] at h1
      simp at h1
    · rw [if_neg hc] at h1
      simp only [List.mem_singleton] at h1
      exact ⟨h1, by simpa using hc⟩
  · right
    by_cases hc : containsSub ("Globs".data ++ [':']) fm = true
    · rw [if_pos hc] at h1
      simp at h1
    · rw [if_neg hc] at h1
      simp only [List.mem_singleton] at h1
      exact ⟨h1, by simpa using hc⟩

/-- Inversion for the Globs-value check. -/
theorem mem_globsErrs {fm : List Char} {diag : Diagnostic}
    (h : diag ∈ globsErrs fm) :
    diag = Diagnostic.mk .EmptyRequiredValue emptyGlobsMsg := by
  unfold globsErrs at h
  split at h
  · split at h
    · simpa using h
    · simp at h
  · simp at h

/-- Inversion for the reference check over a target list. -/
theorem mem_refErrsList {known : List String} {diag : Diagnostic} :
    ∀ {l : List String}, diag ∈ refErrsList known l →
      ∃ t ∈ l, known.contains t = false ∧
        diag = Diagnostic.mk .DanglingReference (danglingMsg t) := by
  intro l
  induction l with
  | nil => intro h; simp [refErrsList] at h
  | cons r rest ih =>
      intro h
      simp only [refErrsList, List.mem_append] at h
      rcases h with h | h
      · by_cases hc : known.contains r = true
        · rw [if_pos hc] at h
          simp at h
        · rw [if_neg hc] at h
          simp only [List.mem_singleton] at h
          exact ⟨r, List.mem_cons_self _ _, by simpa using hc, h⟩
      · obtain ⟨t, htl, hc, he⟩ := ih h
        exact ⟨t, List.mem_cons_of_mem _ htl, hc, he⟩

/-- An unresolved target in the list produces its dangling-reference
diagnostic. -/
theorem refErrsList_mem_intro {known : List String} {t : String} :
    ∀ {l : List String}, t ∈ l → known.contains t = false →
      Diagnostic.mk .DanglingReference (danglingMsg t) ∈ refErrsList known l := by
  intro l
  induction l with
  | nil => intro h _; simp at h
  | cons r rest ih =>
      intro hmem hc
      simp only [refErrsList, List.mem_append]
      rcases List.mem_cons.mp hmem with rfl | hmem2
      · left
        rw [if_neg (by rw [hc]; decide)]
        simp
      · right
        exact ih hmem2 hc

/-- When every target resolves, the reference check is silent. -/
theorem refErrsList_eq_nil {known : List String} :
    ∀ {l : List String}, (∀ t ∈ l, known.contains t = true) →
      refErrsList known l = [] := by
  intro l
  induction l with
  | nil => intro _; rfl
  | cons r rest ih =>
      intro h
      simp only [refErrsList]
      rw [if_pos (h r (List.mem_cons_self _ _)),
        ih (fun t ht => h t (List.mem_cons_of_mem _ ht))]
      rfl

/-- Inversion for the heading check. -/
theorem mem_headingErrs {content : List Char} {diag : Diagnostic}
    (h : diag ∈ headingErrs content) :
    diag = Diagnostic.mk .EmptyBodyContent noHeadingMsg ∧
      containsSub ['#'] (mainContentOf content) = false := by
  unfold headingErrs at h
  by_cases hc : containsSub ['#'] (mainContentOf content) = true
  · rw [if_pos hc] at h
    simp at h
  · rw [if_neg hc] at h
    simp only [List.mem_singleton] at h
    exact ⟨h, by simpa using hc⟩

/-- Every diagnostic of a file comes from one of the six checks. -/
theorem mem_validateRuleFile {f : String} {content : List Char}
    {known : List String} {diag : Diagnostic}
    (h : diag ∈ validateRuleFile f content known) :
    diag ∈ startErrs content ∨ diag ∈ closeErrs content ∨
      diag ∈ sectionErrs (frontmatterOf content) ∨
      diag ∈ globsErrs (frontmatterOf content) ∨
      diag ∈ refErrs content known ∨ diag ∈ headingErrs content := by
  unfold validateRuleFile at h
  rcases List.mem_append.mp h with h1 | h1
  · rcases List.mem_append.mp h1 with h2 | h2
    · rcases List.mem_append.mp h2 with h3 | h3
      · rcases List.mem_append.mp h3 with h4 | h4
        · rcases List.mem_append.mp h4 with h5 | h5
          · exact Or.inl h5
          · exact Or.inr (Or.inl h5)
        · exact Or.inr (Or.inr (Or.inl h4))
      · exact Or.inr (Or.inr (Or.inr (Or.inl h3)))
    · exact Or.inr (Or.inr (Or.inr (Or.inr (Or.inl h2))))
  · exact Or.inr (Or.inr (Or.inr (Or.inr (Or.inr h1))))

/-- Messages of dangling-reference diagnostics determine the target. -/
theorem danglingMsg_inj {t u : String} (h : danglingMsg t = danglingMsg u) :
    t = u := by
  unfold danglingMsg at h
  have h2 := congrArg String.data h
  rw [String.data_append, String.data_append] at h2
  have h3 := List.append_cancel_left h2
  cases t
  cases u
  exact congrArg String.mk (by simpa using h3)

/-- A dangling-reference diagnostic of a file always names a target
extracted from its content by the reference regex. -/
theorem dangling_target_mem {f : String} {content : List Char}
    {known : List String} {t : String}
    (h : Diagnostic.mk .DanglingReference (danglingMsg t)
      ∈ validateRuleFile f content known) :
    t ∈ scanRefs content := by
  rcases mem_validateRuleFile h with h1 | h1 | h1 | h1 | h1 | h1
  · have hk : DiagKind.DanglingReference = DiagKind.MissingHeaderBlock :=
      congrArg Diagnostic.kind (mem_startErrs h1)
    cases hk
  · have hk : DiagKind.DanglingReference = DiagKind.UnterminatedHeaderBlock :=
      congrArg Diagnostic.kind (mem_closeErrs h1)
    cases hk
  · rcases mem_sectionErrs h1 with ⟨he, _⟩ | ⟨he, _⟩ <;>
    · have hk : DiagKind.DanglingReference = DiagKind.MissingRequiredKey :=
        congrArg Diagnostic.kind he
      cases hk
  · have hk : DiagKind.DanglingReference = DiagKind.EmptyRequiredValue :=
      congrArg Diagnostic.kind (mem_globsErrs h1)
    cases hk
  · unfold refErrs at h1
    obtain ⟨u, hu, _, he⟩ := mem_refErrsList h1
    have hmsg : danglingMsg t = danglingMsg u := congrArg Diagnostic.message he
    rw [danglingMsg_inj hmsg]
    exact hu
  · have hk : DiagKind.DanglingReference = DiagKind.EmptyBodyContent :=
      congrArg Diagnostic.kind (mem_headingErrs h1).1
    cases hk

/-- When every extracted target of a file resolves, none of its
diagnostics is a DanglingReference. -/
theorem no_dangling_of_refs_known {f : String} {content : List Char}
    {known : List String}
    (h : ∀ t ∈ scanRefs content, known.contains t = true) :
    ∀ diag ∈ validateRuleFile f content known,
      diag.kind ≠ DiagKind.DanglingReference := by
  intro diag hmem
  rcases mem_validateRuleFile hmem with h1 | h1 | h1 | h1 | h1 | h1
  · rw [mem_startErrs h1]
    simp
  · rw [mem_closeErrs h1]
    simp
  · rcases mem_sectionErrs h1 with ⟨he, _⟩ | ⟨he, _⟩ <;> rw [he] <;> simp
  · rw [mem_globsErrs h1]
    simp
  · unfold refErrs at h1
    rw [refErrsList_eq_nil h] at h1
    simp at h1
  · rw [(mem_headingErrs h1).1]
    simp

/-- Every character of an extracted reference target is a word-dash
character or part of the extension: a path separator is neither. -/
theorem scanRefs_no_slash {t : String} :
    ∀ {cs : List Char}, t ∈ scanRefs cs → '/' ∉ t.data := by
  intro cs
  induction cs with
  | nil => intro h; simp [scanRefs] at h
  | cons c rest ih =>
      intro h
      simp only [scanRefs, List.mem_append] at h
      rcases h with h | h
      · by_cases hc : (c == '@' &&
            (!(rest.takeWhile wordDashChar).isEmpty &&
              mdcPat.isPrefixOf (rest.dropWhile wordDashChar))) = true
        · rw [if_pos hc] at h
          simp only [List.mem_singleton] at h
          subst h
          intro hs
          rcases List.mem_append.mp hs with h2 | h2
          · exact absurd (List.mem_takeWhile_imp h2) (by decide)
          · exact absurd h2 (by decide)
        · rw [if_neg hc] at h
          simp at h
      · exact ih h

/-- The failure flag of a run is set exactly when some document's
validation against the full registered name set is non-empty. -/
theorem hasErrors_iff (docs : List RawDoc) :
    (validateRules docs).hasErrors = true ↔
      ∃ d ∈ docs,
        validateRuleFile d.identifier d.content.data (knownIdentifiers docs) ≠ [] := by
  simp [validateRules, List.any_eq_true, List.mem_map, knownIdentifiers]

/-- The run report is free of DanglingReference diagnostics exactly when
every document's validation is. -/
theorem hasDangling_eq_false_iff (docs : List RawDoc) :
    hasDangling (validateRules docs) = false ↔
      ∀ d ∈ docs,
        ∀ diag ∈ validateRuleFile d.identifier d.content.data (knownIdentifiers docs),
          diag.kind ≠ DiagKind.DanglingReference := by
  simp [hasDangling, validateRules, List.any_eq_false, List.mem_map,
    knownIdentifiers]

/-! Concrete documents used as witnesses and counterexamples. -/

/-- A document whose text does not begin with the delimiter. -/
def noDelimDoc : RawDoc := ⟨"c3.mdc", "No delimiter here\n# H"⟩

/-- A document whose Globs section is present with a blank value. -/
def blankGlobsDoc : RawDoc :=
  ⟨"c4.mdc", "---\nDescription: x\nGlobs:\n---\n# H"⟩

/-- Two documents that reference each other. -/
def mutualA : RawDoc :=
  ⟨"a.mdc", "---\nDescription: a\nGlobs: *.ts\n---\n# A\n@b.mdc\n"⟩

/-- Second document of the mutually referencing pair. -/
def mutualB : RawDoc :=
  ⟨"b.mdc", "---\nDescription: b\nGlobs: *.md\n---\n# B\n@a.mdc\n"⟩

/-- A document whose only reference-shaped token sits inside the
frontmatter; the body below the header has none. -/
def headerRefDoc : RawDoc :=
  ⟨"c6.mdc",
   "---\nDescription: see @ghost.mdc\nGlobs: *.ts\n---\n# H\nbody text\n"⟩

/-- A document whose only hash character appears mid-line in the body. -/
def midlineHashDoc : RawDoc :=
  ⟨"c7.mdc", "---\nDescription: x\nGlobs: *.ts\n---\ncontent # not a heading"⟩

/-- A document whose frontmatter contains the substring of the
Description key only inside another key's value; no line provides the key
itself. -/
def hiddenKeyDoc : RawDoc :=
  ⟨"c9.mdc", "---\nNote: Description: hidden\nGlobs: *.ts\n---\n# H\n"⟩

/-- A document whose body references a rule file in a subdirectory. -/
def subdirRefDoc : RawDoc :=
  ⟨"c10.mdc", "---\nDescription: x\nGlobs: *.ts\n---\n# H\nsee @dir/file.mdc\n"⟩

/-! The claims. -/

/-- C1: for every run over the rules directory, the process exit code is
non-zero iff at least one document produced at least one Diagnostic; a
run in which every document yields zero Diagnostics exits with code
zero. -/
theorem C1_exit_code_nonzero_iff_some_invalid (docs : List RawDoc) :
    exitCode docs ≠ 0 ↔
      ∃ d ∈ docs,
        validateRuleFile d.identifier d.content.data (knownIdentifiers docs) ≠ [] := by
  rw [← hasErrors_iff]
  unfold exitCode
  cases docs with
  | nil => simp [validateRules]
  | cons d0 rest =>
      rw [if_neg (by simp)]
      constructor
      · intro h
        by_contra hc
        rw [if_neg hc] at h
        exact h rfl
      · intro h
        rw [if_pos h]
        exact one_ne_zero

/-- C3 counterexample: at this document without an opening delimiter, the
code emits five diagnostics (the two frontmatter errors, both
missing-section errors and the missing-heading error), not exactly one
MissingHeaderBlock diagnostic: validation does not stop at the missing
opening delimiter. -/
theorem C3_counterexample :
    validateRuleFile "c3.mdc" noDelimDoc.content.data [] =
        [Diagnostic.mk .MissingHeaderBlock frontStartMsg,
         Diagnostic.mk .UnterminatedHeaderBlock frontCloseMsg,
         Diagnostic.mk .MissingRequiredKey (missingSectionMsg "Description"),
         Diagnostic.mk .MissingRequiredKey (missingSectionMsg "Globs"),
         Diagnostic.mk .EmptyBodyContent noHeadingMsg] ∧
      validateRuleFile "c3.mdc" noDelimDoc.content.data [] ≠
        [Diagnostic.mk .MissingHeaderBlock frontStartMsg] := by
  decide

/-- C3 (amended): for every document whose text does not begin with the
opening delimiter, the diagnostics begin with the MissingHeaderBlock
diagnostic; the downstream checks still run and may append further
diagnostics. -/
theorem C3_amended_first_diag (f : String) (content : List Char)
    (known : List String) (h : delimPat.isPrefixOf content = false) :
    (validateRuleFile f content known).head? =
      some (Diagnostic.mk .MissingHeaderBlock frontStartMsg) := by
  unfold validateRuleFile startErrs
  rw [if_neg (by rw [h]; decide)]
  rfl

/-- Witness for the amended C3 at the concrete document. -/
theorem C3_witness :
    (validateRuleFile "c3.mdc" noDelimDoc.content.data []).head? =
      some (Diagnostic.mk .MissingHeaderBlock frontStartMsg) :=
  C3_amended_first_diag "c3.mdc" noDelimDoc.content.data [] (by decide)

/-- C4: at a document whose frontmatter contains the Globs section with a
blank value, the code emits NO diagnostic at all: the presence substring
check passes and the value regex, run against the trimmed frontmatter,
fails to match a blank value, so the empty-Globs push never fires —
contrary to the claim (and design document 4.2), which requires an
EmptyRequiredValue diagnostic here. -/
theorem C4_code_emits_nothing_for_blank_globs :
    containsSub ("Globs".data ++ [':']) (frontmatterOf blankGlobsDoc.content.data)
        = true ∧
      globsMatch (frontmatterOf blankGlobsDoc.content.data) = none ∧
      validateRuleFile "c4.mdc" blankGlobsDoc.content.data [] = [] := by
  decide

/-- C5: two documents that each reference the other (and nothing outside
the pair) validate with no DanglingReference diagnostic in either
enumeration order: all file names are registered before any reference
check runs. -/
theorem C5_mutual_refs_no_dangling (A B : RawDoc)
    (hAB : B.identifier ∈ docRefs A) (hBA : A.identifier ∈ docRefs B)
    (hA : ∀ t ∈ docRefs A, t = A.identifier ∨ t = B.identifier)
    (hB : ∀ t ∈ docRefs B, t = A.identifier ∨ t = B.identifier) :
    hasDangling (validateRules [A, B]) = false ∧
      hasDangling (validateRules [B, A]) = false := by
  constructor
  · rw [hasDangling_eq_false_iff]
    intro d hd diag hdiag
    have hde : d = A ∨ d = B := by simpa using hd
    have hknown : ∀ t ∈ scanRefs d.content.data,
        (knownIdentifiers [A, B]).contains t = true := by
      intro t ht
      have hor : t = A.identifier ∨ t = B.identifier := by
        rcases hde with rfl | rfl
        · exact hA t ht
        · exact hB t ht
      rcases hor with rfl | rfl <;> simp [knownIdentifiers]
    exact no_dangling_of_refs_known hknown diag hdiag
  · rw [hasDangling_eq_false_iff]
    intro d hd diag hdiag
    have hde : d = B ∨ d = A := by simpa using hd
    have hknown : ∀ t ∈ scanRefs d.content.data,
        (knownIdentifiers [B, A]).contains t = true := by
      intro t ht
      have hor : t = A.identifier ∨ t = B.identifier := by
        rcases hde with rfl | rfl
        · exact hB t ht
        · exact hA t ht
      rcases hor with rfl | rfl <;> simp [knownIdentifiers]
    exact no_dangling_of_refs_known hknown diag hdiag

/-- Witness for C5 at a concrete mutually referencing pair. -/
theorem C5_witness :
    hasDangling (validateRules [mutualA, mutualB]) = false ∧
      hasDangling (validateRules [mutualB, mutualA]) = false :=
  C5_mutual_refs_no_dangling mutualA mutualB
    (by decide) (by decide) (by decide) (by decide)

/-- C6 counterexample: the reference regex runs over the whole content,
frontmatter included, so the header-only token of this document DOES
produce a DanglingReference diagnostic against an empty known set —
contrary to the claim that header tokens never do. -/
theorem C6_counterexample :
    Diagnostic.mk .DanglingReference (danglingMsg "ghost.mdc")
      ∈ validateRuleFile "c6.mdc" headerRefDoc.content.data [] := by
  decide

/-- C6 (amended): reference tokens are extracted from the document's
ENTIRE text, header block included: every extracted token whose target is
not in the known name set produces a DanglingReference diagnostic, even
when the token occurs only inside the header block. -/
theorem C6_amended_full_text_refs (f : String) (content : List Char)
    (known : List String) (t : String)
    (ht : t ∈ scanRefs content) (hun : known.contains t = false) :
    Diagnostic.mk .DanglingReference (danglingMsg t)
      ∈ validateRuleFile f content known := by
  unfold validateRuleFile
  apply List.mem_append_left
  apply List.mem_append_right
  unfold refErrs
  exact refErrsList_mem_intro ht hun

/-- Witness for the amended C6: the header-block token of the concrete
document is flagged even against a non-empty known set lacking its
target. -/
theorem C6_witness :
    Diagnostic.mk .DanglingReference (danglingMsg "ghost.mdc")
      ∈ validateRuleFile "c6.mdc" headerRefDoc.content.data ["other.mdc"] :=
  C6_amended_full_text_refs "c6.mdc" headerRefDoc.content.data ["other.mdc"]
    "ghost.mdc" (by decide) (by decide)

/-- C7 counterexample: the body check of the code is a substring search
for the hash character, so this document, whose only hash appears
mid-line, receives NO EmptyBodyContent diagnostic — contrary to the claim
that a mid-line hash is still reported. -/
theorem C7_counterexample :
    Diagnostic.mk .EmptyBodyContent noHeadingMsg
      ∉ validateRuleFile "c7.mdc" midlineHashDoc.content.data [] := by
  decide

/-- C7 (amended): an EmptyBodyContent diagnostic is emitted iff the main
content (the text between the first and second delimiter separators)
contains no hash character anywhere: a mid-line hash counts as a heading
marker and suppresses the diagnostic. -/
theorem C7_amended_hash_anywhere (f : String) (content : List Char)
    (known : List String) :
    Diagnostic.mk .EmptyBodyContent noHeadingMsg
        ∈ validateRuleFile f content known ↔
      containsSub ['#'] (mainContentOf content) = false := by
  constructor
  · intro hmem
    rcases mem_validateRuleFile hmem with h1 | h1 | h1 | h1 | h1 | h1
    · have hk : DiagKind.EmptyBodyContent = DiagKind.MissingHeaderBlock :=
        congrArg Diagnostic.kind (mem_startErrs h1)
      cases hk
    · have hk : DiagKind.EmptyBodyContent = DiagKind.UnterminatedHeaderBlock :=
        congrArg Diagnostic.kind (mem_closeErrs h1)
      cases hk
    · rcases mem_sectionErrs h1 with ⟨he, _⟩ | ⟨he, _⟩ <;>
      · have hk : DiagKind.EmptyBodyContent = DiagKind.MissingRequiredKey :=
          congrArg Diagnostic.kind he
        cases hk
    · have hk : DiagKind.EmptyBodyContent = DiagKind.EmptyRequiredValue :=
        congrArg Diagnostic.kind (mem_globsErrs h1)
      cases hk
    · unfold refErrs at h1
      obtain ⟨u, _, _, he⟩ := mem_refErrsList h1
      have hk : DiagKind.EmptyBodyContent = DiagKind.DanglingReference :=
        congrArg Diagnostic.kind he
      cases hk
    · exact (mem_headingErrs h1).2
  · intro hfalse
    unfold validateRuleFile
    apply List.mem_append_right
    unfold headingErrs
    rw [if_neg (by rw [hfalse]; decide)]
    simp

/-- C8: validation is deterministic and idempotent: for a fixed document
set, two runs produce identical run reports, identical rendered output
and identical exit codes — in this pure embedding of the synchronous
script, determinism is definitional. -/
theorem C8_validate_idempotent (docs : List RawDoc) :
    validateRules docs = validateRules docs ∧
      renderReport (validateRules docs) = renderReport (validateRules docs) ∧
      exitCode docs = exitCode docs :=
  ⟨rfl, rfl, rfl⟩

/-- C9: required-section presence is a substring check of the
frontmatter, not a line-anchored one: whenever the frontmatter contains
the substring of a required section name followed by a colon — wherever
it occurs, including inside another key's value — no MissingRequiredKey
diagnostic is emitted for that section. -/
theorem C9_substring_presence_no_missing_key (f : String) (content : List Char)
    (known : List String) :
    (containsSub ("Description".data ++ [':']) (frontmatterOf content) = true →
        Diagnostic.mk .MissingRequiredKey (missingSectionMsg "Description")
          ∉ validateRuleFile f content known) ∧
      (containsSub ("Globs".data ++ [':']) (frontmatterOf content) = true →
        Diagnostic.mk .MissingRequiredKey (missingSectionMsg "Globs")
          ∉ validateRuleFile f content known) := by
  constructor
  · intro hpres hmem
    rcases mem_validateRuleFile hmem with h1 | h1 | h1 | h1 | h1 | h1
    · have hk : DiagKind.MissingRequiredKey = DiagKind.MissingHeaderBlock :=
        congrArg Diagnostic.kind (mem_startErrs h1)
      cases hk
    · have hk : DiagKind.MissingRequiredKey = DiagKind.UnterminatedHeaderBlock :=
        congrArg Diagnostic.kind (mem_closeErrs h1)
      cases hk
    · rcases mem_sectionErrs h1 with ⟨_, habs⟩ | ⟨he, _⟩
      · rw [hpres] at habs
        cases habs
      · have hmsg : missingSectionMsg "Description" = missingSectionMsg "Globs" :=
          congrArg Diagnostic.message he
        exact absurd hmsg (by decide)
    · have hk : DiagKind.MissingRequiredKey = DiagKind.EmptyRequiredValue :=
        congrArg Diagnostic.kind (mem_globsErrs h1)
      cases hk
    · unfold refErrs at h1
      obtain ⟨u, _, _, he⟩ := mem_refErrsList h1
      have hk : DiagKind.MissingRequiredKey = DiagKind.DanglingReference :=
        congrArg Diagnostic.kind he
      cases hk
    · have hk : DiagKind.MissingRequiredKey = DiagKind.EmptyBodyContent :=
        congrArg Diagnostic.kind (mem_headingErrs h1).1
      cases hk
  · intro hpres hmem
    rcases mem_validateRuleFile hmem with h1 | h1 | h1 | h1 | h1 | h1
    · have hk : DiagKind.MissingRequiredKey = DiagKind.MissingHeaderBlock :=
        congrArg Diagnostic.kind (mem_startErrs h1)
      cases hk
    · have hk : DiagKind.MissingRequiredKey = DiagKind.UnterminatedHeaderBlock :=
        congrArg Diagnostic.kind (mem_closeErrs h1)
      cases hk
    · rcases mem_sectionErrs h1 with ⟨he, _⟩ | ⟨_, habs⟩
      · have hmsg : missingSectionMsg "Globs" = missingSectionMsg "Description" :=
          congrArg Diagnostic.message he
        exact absurd hmsg (by decide)
      · rw [hpres] at habs
        cases habs
    · have hk : DiagKind.MissingRequiredKey = DiagKind.EmptyRequiredValue :=
        congrArg Diagnostic.kind (mem_globsErrs h1)
      cases hk
    · unfold refErrs at h1
      obtain ⟨u, _, _, he⟩ := mem_refErrsList h1
      have hk : DiagKind.MissingRequiredKey = DiagKind.DanglingReference :=
        congrArg Diagnostic.kind he
      cases hk
    · have hk : DiagKind.MissingRequiredKey = DiagKind.EmptyBodyContent :=
        congrArg Diagnostic.kind (mem_headingErrs h1).1
      cases hk

/-- Witness for C9: the concrete document carrying the Description
substring only inside another key's value receives no MissingRequiredKey
diagnostic for Description. -/
theorem C9_witness :
    Diagnostic.mk .MissingRequiredKey (missingSectionMsg "Description")
      ∉ validateRuleFile "c9.mdc" hiddenKeyDoc.content.data [] :=
  (C9_substring_presence_no_missing_key "c9.mdc" hiddenKeyDoc.content.data []).1
    (by decide)

/-- C10: a reference target containing a path separator is never produced
by the extraction regex (the separator is outside the word-dash class and
the extension), so such a target never yields a DanglingReference
diagnostic, whatever the document and the known set. -/
theorem C10_separator_target_never_dangling (f : String) (content : List Char)
    (known : List String) (t : String) (h : '/' ∈ t.data) :
    Diagnostic.mk .DanglingReference (danglingMsg t)
      ∉ validateRuleFile f content known := by
  intro hmem
  exact absurd h (scanRefs_no_slash (dangling_target_mem hmem))

/-- Witness for C10: the subdirectory reference of the concrete document
yields no DanglingReference even against an empty known set. -/
theorem C10_witness :
    Diagnostic.mk .DanglingReference (danglingMsg "dir/file.mdc")
      ∉ validateRuleFile "c10.mdc" subdirRefDoc.content.data [] :=
  C10_separator_target_never_dangling "c10.mdc" subdirRefDoc.content.data []
    "dir/file.mdc" (by decide)

end CursorRules
